import Mathlib

/-!
Shallow embedding of the social-graph and engagement core of
`src/backend/server.js` (CollegeMate backend).

User ids are the string forms of MongoDB ObjectIds; `undefined`/missing
request fields are modelled as the empty string (both are falsy in the
`if (!userId || ...)` guards).  A Mongoose `save()` writes back the
modified paths of the fetched document, so each handler is modelled as
reading snapshots of the referenced records and then writing the mutated
fields back by id.
-/

namespace CollegeMate

abbrev UserId := String

/-- The User model (relationship-relevant fields of `userSchema`). -/
structure User where
  id : UserId
  firstName : String
  lastName : String
  profileImage : String
  followers : List UserId
  following : List UserId
deriving Repr, DecidableEq

/-- A comment embedded in a post (`postSchema.comments` entries). -/
structure Comment where
  userId : UserId
  text : String
  createdAt : Int
deriving Repr, DecidableEq

/-- The Post model (`postSchema`).  `likes` and `shares` are JS numbers,
modelled as integers; `createdAt` is a timestamp. -/
structure Post where
  id : String
  userId : UserId
  text : String
  image : String
  video : String
  likes : Int
  likedBy : List UserId
  shares : Int
  comments : List Comment
  createdAt : Int
deriving Repr, DecidableEq

/-- `User.findById`: first record whose id matches. -/
def findById (db : List User) (id : UserId) : Option User :=
  db.find? (fun u => u.id == id)

/-- `Post.findById`. -/
def findPostById (db : List Post) (id : String) : Option Post :=
  db.find? (fun p => p.id == id)

/-- `me.following = ...; await me.save()`: write back the `following`
path of the record with the given id. -/
def saveFollowing (db : List User) (uid : UserId) (l : List UserId) : List User :=
  db.map (fun u => if u.id == uid then { u with following := l } else u)

/-- `them.followers = ...; await them.save()`: write back the `followers`
path of the record with the given id. -/
def saveFollowers (db : List User) (uid : UserId) (l : List UserId) : List User :=
  db.map (fun u => if u.id == uid then { u with followers := l } else u)

/-- Outcome of a user-graph handler: HTTP status, message, and the user
store after the handler ran (unchanged on the error paths, which return
before any `save()`). -/
structure UserMutation where
  status : Nat
  message : String
  db : List User
deriving Repr

/-- `POST /user/follow` (server.js:219-251).  Reads snapshots of both
users, then conditionally pushes `targetId` onto `me.following` and
`userId` onto `them.followers`, saving each modified record. -/
def followHandler (db : List User) (userId targetId : String) : UserMutation :=
  if userId == "" || targetId == "" then
    { status := 400, message := "userId and targetId are required.", db := db }
  else if userId == targetId then
    { status := 400, message := "You cannot follow yourself.", db := db }
  else
    match findById db userId, findById db targetId with
    | some me, some them =>
      let db1 := if me.following.contains targetId then db
                 else saveFollowing db userId (me.following ++ [targetId])
      let db2 := if them.followers.contains userId then db1
                 else saveFollowers db1 targetId (them.followers ++ [userId])
      { status := 200, message := "Followed successfully.", db := db2 }
    | _, _ => { status := 404, message := "User not found.", db := db }

/-- `POST /user/unfollow` (server.js:256-282).  Filters `targetId` out of
`me.following` and `userId` out of `them.followers` unconditionally; no
self-unfollow guard exists. -/
def unfollowHandler (db : List User) (userId targetId : String) : UserMutation :=
  if userId == "" || targetId == "" then
    { status := 400, message := "userId and targetId are required.", db := db }
  else
    match findById db userId, findById db targetId with
    | some me, some them =>
      let db1 := saveFollowing db userId (me.following.filter (fun i => i != targetId))
      let db2 := saveFollowers db1 targetId (them.followers.filter (fun i => i != userId))
      { status := 200, message := "Unfollowed successfully.", db := db2 }
    | _, _ => { status := 404, message := "User not found.", db := db }

/-- The like-toggle mutation on a single post (server.js:380-389):
if `userId` is in `likedBy`, filter out every occurrence and decrement
`likes` clamped at 0; otherwise push `userId` and increment `likes`. -/
def toggleLike (post : Post) (userId : UserId) : Post :=
  if post.likedBy.contains userId then
    { post with likedBy := post.likedBy.filter (fun i => i != userId),
                likes := max (post.likes - 1) 0 }
  else
    { post with likedBy := post.likedBy ++ [userId],
                likes := post.likes + 1 }

/-- Write back the `comments` path of the post with the given id. -/
def savePostComments (db : List Post) (pid : String) (cs : List Comment) : List Post :=
  db.map (fun p => if p.id == pid then { p with comments := cs } else p)

/-- Outcome of a post handler: HTTP status, message, post store after. -/
structure PostMutation where
  status : Nat
  message : String
  db : List Post
deriving Repr

/-- `POST /post/comment` (server.js:401-427).  `now` is the value of
`new Date()` at the time of the call. -/
def addCommentHandler (db : List Post) (postId userId commentText : String)
    (now : Int) : PostMutation :=
  if postId == "" || userId == "" || commentText == "" then
    { status := 400, message := "postId, userId, and commentText are required.", db := db }
  else
    match findPostById db postId with
    | none => { status := 404, message := "Post not found.", db := db }
    | some post =>
      { status := 200, message := "Comment added.",
        db := savePostComments db postId
          (post.comments ++ [{ userId := userId, text := commentText, createdAt := now }]) }

/-- The profile payload computed by `GET /profile/:id` (server.js:153-190):
relationship counts plus the viewer-relative `isFollowing` flag. -/
structure ProfileView where
  followersCount : Nat
  followingCount : Nat
  isFollowing : Bool
deriving Repr, DecidableEq

/-- `GET /profile/:id` (server.js:153-190).  `myId` is the optional
`?myId=` query parameter; a missing parameter is `none` and an empty one
is falsy, so both leave `isFollowing` false.  `populate` resolves each
follower/following id to its user record, dropping ids that do not
resolve, and the counts are taken over the populated arrays. -/
def getProfile (udb : List User) (id : String) (myId : Option String) :
    Option ProfileView :=
  match findById udb id with
  | none => none
  | some user =>
    let followersDocs := user.followers.filterMap (fun f => findById udb f)
    let followingDocs := user.following.filterMap (fun f => findById udb f)
    some { followersCount := followersDocs.length,
           followingCount := followingDocs.length,
           isFollowing :=
             match myId with
             | none => false
             | some m =>
               if m != "" && m != id then followersDocs.any (fun f => f.id == m)
               else false }

/-- One element of the `GET /posts` response (server.js:467-483). -/
structure FeedEntry where
  id : String
  userId : UserId
  userName : String
  userAvatar : String
  text : String
  image : String
  video : String
  likes : Int
  likedBy : List UserId
  shares : Int
  comments : Nat
  createdAt : Int
deriving Repr, DecidableEq

/-- `userId` present in the query restricts `Post.find` to that author
(server.js:458-462). -/
def matchesAuthor (authorId : Option UserId) (p : Post) : Bool :=
  match authorId with
  | none => true
  | some x => p.userId == x

/-- Contract of the external post store for
`Post.find(filter).sort(createdAt descending)` (server.js:463-465): the
returned list is a permutation of the matching posts, ordered by
non-increasing `createdAt`.  MongoDB specifies nothing further about the
relative order of documents with equal sort keys, so any list meeting
this contract may be returned. -/
def StoreSortOutput (db : List Post) (authorId : Option UserId)
    (out : List Post) : Prop :=
  out.Perm (db.filter (matchesAuthor authorId)) ∧
  out.Pairwise (fun a b => b.createdAt ≤ a.createdAt)

/-- The per-post projection of the `/posts` handler (server.js:467-483).
`populate` yields the author document; if the author id does not resolve,
the handler dereferences null and fails, modelled as `none`. -/
def mapPost (udb : List User) (p : Post) : Option FeedEntry :=
  (findById udb p.userId).map fun u =>
    { id := p.id, userId := u.id,
      userName := u.firstName ++ " " ++ u.lastName,
      userAvatar := u.profileImage,
      text := p.text, image := p.image, video := p.video,
      likes := p.likes, likedBy := p.likedBy, shares := p.shares,
      comments := p.comments.length, createdAt := p.createdAt }

/-- `posts.map(...)` over the sorted store output; `none` models the 500
response when some author document is missing. -/
def mapPosts (udb : List User) : List Post → Option (List FeedEntry)
  | [] => some []
  | p :: ps =>
    match mapPost udb p, mapPosts udb ps with
    | some e, some es => some (e :: es)
    | _, _ => none

/-- The spec invariant on a post's like state: the denormalized counter
matches the cardinality of the liked-by set (a set has no duplicate
members, so the representing list is duplicate-free). -/
def LikeConsistent (p : Post) : Prop :=
  p.likes = (p.likedBy.length : Int) ∧ p.likedBy.Nodup

/-! ### Concrete example stores used by the witness theorems -/

/-- Sample user store for the follow witness. -/
def exUdb : List User :=
  [{ id := "a", firstName := "Ada", lastName := "L", profileImage := "",
     followers := [], following := [] },
   { id := "b", firstName := "Bob", lastName := "M", profileImage := "",
     followers := [], following := [] }]

/-- User store for the unfollow witness: two users with no edges. -/
def exUdb2 : List User :=
  [{ id := "c", firstName := "Cal", lastName := "N", profileImage := "",
     followers := [], following := [] },
   { id := "d", firstName := "Dee", lastName := "O", profileImage := "",
     followers := [], following := [] }]

/-- A post whose stored like state is inconsistent: zero likes while a
user is already in `likedBy` (the edge case named by the clamp claim). -/
def exPost0 : Post :=
  { id := "p0", userId := "a", text := "hello", image := "", video := "",
    likes := 0, likedBy := ["u"], shares := 0, comments := [], createdAt := 0 }

/-- A consistent post with one like, used by the toggle witnesses. -/
def exPost1 : Post :=
  { id := "p1", userId := "a", text := "hi", image := "", video := "",
    likes := 1, likedBy := ["u"], shares := 0, comments := [], createdAt := 3 }

/-- Post store for the comment witness. -/
def exPdb : List Post :=
  [{ id := "q1", userId := "a", text := "note", image := "", video := "",
     likes := 0, likedBy := [], shares := 0,
     comments := [{ userId := "b", text := "first", createdAt := 1 }],
     createdAt := 2 }]

/-- User store for the profile witness: "a" follows "b". -/
def exUdb3 : List User :=
  [{ id := "a", firstName := "Ada", lastName := "L", profileImage := "",
     followers := [], following := ["b"] },
   { id := "b", firstName := "Bob", lastName := "M", profileImage := "",
     followers := ["a"], following := [] }]

/-- Two posts by the same author created at the same instant. -/
def exTieP1 : Post :=
  { id := "t1", userId := "x", text := "one", image := "", video := "",
    likes := 0, likedBy := [], shares := 0, comments := [], createdAt := 5 }

/-- Second post tied with `exTieP1` on `createdAt`. -/
def exTieP2 : Post :=
  { id := "t2", userId := "x", text := "two", image := "", video := "",
    likes := 0, likedBy := [], shares := 0, comments := [], createdAt := 5 }

/-- Post store holding the two tied posts. -/
def exTiePdb : List Post := [exTieP1, exTieP2]

/-- User store resolving the tied posts' author. -/
def exTieUdb : List User :=
  [{ id := "x", firstName := "Xu", lastName := "Y", profileImage := "",
     followers := [], following := [] }]

/-! ### Helper lemmas about the store operations -/

lemma id_of_findById {db : List User} {i : UserId} {u : User}
    (h : findById db i = some u) : u.id = i := by
  have := List.find?_some h
  simpa using this

lemma id_of_findPostById {db : List Post} {i : String} {p : Post}
    (h : findPostById db i = some p) : p.id = i := by
  have := List.find?_some h
  simpa using this

lemma findById_saveFollowing (db : List User) (uid : UserId) (l : List UserId)
    (i : UserId) :
    findById (saveFollowing db uid l) i =
      (findById db i).map (fun u => if u.id == uid then { u with following := l } else u) := by
  unfold findById saveFollowing
  rw [List.find?_map]
  congr 1
  congr 1
  funext u
  by_cases h : u.id == uid <;> simp [Function.comp, h]

lemma findById_saveFollowers (db : List User) (uid : UserId) (l : List UserId)
    (i : UserId) :
    findById (saveFollowers db uid l) i =
      (findById db i).map (fun u => if u.id == uid then { u with followers := l } else u) := by
  unfold findById saveFollowers
  rw [List.find?_map]
  congr 1
  congr 1
  funext u
  by_cases h : u.id == uid <;> simp [Function.comp, h]

lemma findPostById_saveComments (db : List Post) (pid : String) (cs : List Comment)
    (i : String) :
    findPostById (savePostComments db pid cs) i =
      (findPostById db i).map (fun p => if p.id == pid then { p with comments := cs } else p) := by
  unfold findPostById savePostComments
  rw [List.find?_map]
  congr 1
  congr 1
  funext p
  by_cases h : p.id == pid <;> simp [Function.comp, h]

lemma saveFollowing_noop {db : List User} {uid : UserId} {a : User}
    (ha : findById db uid = some a) (X : UserId) :
    findById (saveFollowing db uid a.following) X = findById db X := by
  rw [findById_saveFollowing]
  cases h : findById db X with
  | none => rfl
  | some u =>
    simp only [Option.map_some']
    by_cases hx : u.id == uid
    · have hux : u.id = X := id_of_findById h
      have hXuid : X = uid := by rw [← hux]; exact eq_of_beq hx
      subst hXuid
      rw [h] at ha
      have hua : u = a := Option.some.inj ha
      subst hua
      simp [hx]
    · simp [hx]

lemma saveFollowers_noop {db : List User} {uid : UserId} {a : User}
    (ha : findById db uid = some a) (X : UserId) :
    findById (saveFollowers db uid a.followers) X = findById db X := by
  rw [findById_saveFollowers]
  cases h : findById db X with
  | none => rfl
  | some u =>
    simp only [Option.map_some']
    by_cases hx : u.id == uid
    · have hux : u.id = X := id_of_findById h
      have hXuid : X = uid := by rw [← hux]; exact eq_of_beq hx
      subst hXuid
      rw [h] at ha
      have hua : u = a := Option.some.inj ha
      subst hua
      simp [hx]
    · simp [hx]

/-! ### Claim theorems -/

/-- C1: for every pair of distinct existing users A and B, after a
successful `POST /user/follow` (status 200), B is in A's `following`
list and A is in B's `followers` list.  Distinctness and existence are
consequences of success, so the only hypothesis is the 200 status. -/
theorem follow_success_creates_edge (db : List User) (A B : String)
    (h : (followHandler db A B).status = 200) :
    ∃ a b, findById (followHandler db A B).db A = some a ∧ B ∈ a.following ∧
           findById (followHandler db A B).db B = some b ∧ A ∈ b.followers := by
  by_cases h0 : (A == "" || B == "") = true
  · simp [followHandler, h0] at h
  · rw [Bool.not_eq_true] at h0
    by_cases h1 : (A == B) = true
    · simp [followHandler, h0, h1] at h
    · rw [Bool.not_eq_true] at h1
      have hAB : A ≠ B := by simpa using h1
      cases hA : findById db A with
      | none => simp [followHandler, h0, h1, hA] at h
      | some me =>
        cases hB : findById db B with
        | none => simp [followHandler, h0, h1, hA, hB] at h
        | some them =>
          have hmeid : me.id = A := id_of_findById hA
          have hthemid : them.id = B := id_of_findById hB
          simp only [followHandler, h0, h1, hA, hB, Bool.false_eq_true, if_false]
          by_cases hc1 : me.following.contains B = true
          · have hmem1 : B ∈ me.following := by simpa using hc1
            by_cases hc2 : them.followers.contains A = true
            · have hmem2 : A ∈ them.followers := by simpa using hc2
              refine ⟨me, them, ?_⟩
              simp [hc1, hc2, hA, hB, hmem1, hmem2]
            · rw [Bool.not_eq_true] at hc2
              refine ⟨me, { them with followers := them.followers ++ [A] }, ?_⟩
              simp only [hc1, if_true, hc2, Bool.false_eq_true, if_false]
              rw [findById_saveFollowers, findById_saveFollowers, hA, hB]
              simp [hmeid, hthemid, hAB, hmem1]
          · rw [Bool.not_eq_true] at hc1
            by_cases hc2 : them.followers.contains A = true
            · have hmem2 : A ∈ them.followers := by simpa using hc2
              refine ⟨{ me with following := me.following ++ [B] }, them, ?_⟩
              simp only [hc1, Bool.false_eq_true, if_false, hc2, if_true]
              rw [findById_saveFollowing, findById_saveFollowing, hA, hB]
              simp [hmeid, hthemid, hAB, Ne.symm hAB, hmem2]
            · rw [Bool.not_eq_true] at hc2
              refine ⟨{ me with following := me.following ++ [B] },
                      { them with followers := them.followers ++ [A] }, ?_⟩
              simp only [hc1, hc2, Bool.false_eq_true, if_false]
              rw [findById_saveFollowers, findById_saveFollowers,
                  findById_saveFollowing, findById_saveFollowing, hA, hB]
              simp [hmeid, hthemid, hAB, Ne.symm hAB]

theorem follow_success_creates_edge_witness :
    (followHandler exUdb "a" "b").status = 200 ∧
    (∃ a b, findById (followHandler exUdb "a" "b").db "a" = some a ∧
            "b" ∈ a.following ∧
            findById (followHandler exUdb "a" "b").db "b" = some b ∧
            "a" ∈ b.followers) :=
  ⟨by decide, follow_success_creates_edge exUdb "a" "b" (by decide)⟩

/-- C6: `follow(A,A)` always fails with status 400 (InvalidArgument) and
returns before any save, leaving the user store unchanged — both when A
is empty (missing-field guard) and when the self-follow guard fires. -/
theorem follow_self_rejected (db : List User) (A : String) :
    (followHandler db A A).status = 400 ∧ (followHandler db A A).db = db := by
  by_cases hA : A = "" <;> simp [followHandler, hA]

/-- C7: unfollow between existing users who are not connected (in either
direction) returns 200 and leaves both users' records — in particular
their follower and following lists — unchanged.  Ids of existing users
are nonempty ObjectId strings, captured by the two nonemptiness
hypotheses needed to pass the missing-field guard. -/
theorem unfollow_not_connected_noop (db : List User) (A B : String) (a b : User)
    (ha : findById db A = some a) (hb : findById db B = some b)
    (hA : A ≠ "") (hB : B ≠ "")
    (hnf : B ∉ a.following) (hnr : A ∉ b.followers) :
    (unfollowHandler db A B).status = 200 ∧
    findById (unfollowHandler db A B).db A = some a ∧
    findById (unfollowHandler db A B).db B = some b := by
  have hfilter1 : a.following.filter (fun i => i != B) = a.following :=
    List.filter_eq_self.mpr (fun i hi => by
      simp only [bne_iff_ne, ne_eq, decide_eq_true_eq]
      exact fun hiB => hnf (hiB ▸ hi))
  have hfilter2 : b.followers.filter (fun i => i != A) = b.followers :=
    List.filter_eq_self.mpr (fun i hi => by
      simp only [bne_iff_ne, ne_eq, decide_eq_true_eq]
      exact fun hiA => hnr (hiA ▸ hi))
  have hb1 : ∀ X, findById (saveFollowing db A a.following) X = findById db X :=
    saveFollowing_noop ha
  simp only [unfollowHandler, hA, hB, ha, hb, hfilter1, hfilter2]
  have hb' : findById (saveFollowing db A a.following) B = some b := by
    rw [hb1]; exact hb
  have hb2 : ∀ X, findById (saveFollowers (saveFollowing db A a.following) B b.followers) X =
      findById (saveFollowing db A a.following) X := saveFollowers_noop hb'
  simp [hA, hB, hb2, hb1, ha, hb]

theorem unfollow_not_connected_noop_witness :
    (findById exUdb2 "c" = some (exUdb2.get ⟨0, by decide⟩) ∧
     findById exUdb2 "d" = some (exUdb2.get ⟨1, by decide⟩) ∧
     ("c" : String) ≠ "" ∧ ("d" : String) ≠ "" ∧
     "d" ∉ (exUdb2.get ⟨0, by decide⟩).following ∧
     "c" ∉ (exUdb2.get ⟨1, by decide⟩).followers) ∧
    ((unfollowHandler exUdb2 "c" "d").status = 200 ∧
     findById (unfollowHandler exUdb2 "c" "d").db "c" = some (exUdb2.get ⟨0, by decide⟩) ∧
     findById (unfollowHandler exUdb2 "c" "d").db "d" = some (exUdb2.get ⟨1, by decide⟩)) :=
  ⟨⟨by decide, by decide, by decide, by decide, by decide, by decide⟩,
   unfollow_not_connected_noop exUdb2 "c" "d" _ _
     (by decide) (by decide) (by decide) (by decide) (by decide) (by decide)⟩

/-- Removing one element from a duplicate-free list by filtering drops
its length by exactly one. -/
lemma length_filter_ne_of_nodup {l : List UserId} {u : UserId}
    (hn : l.Nodup) (hm : u ∈ l) :
    (l.filter (fun i => i != u)).length + 1 = l.length := by
  induction l with
  | nil => cases hm
  | cons a as ih =>
    have ha : a ∉ as := (List.nodup_cons.mp hn).1
    have has : as.Nodup := (List.nodup_cons.mp hn).2
    by_cases hau : a = u
    · subst hau
      have hfil : as.filter (fun i => i != a) = as :=
        List.filter_eq_self.mpr (fun i hi => by
          simp only [bne_iff_ne, ne_eq, decide_eq_true_eq]
          exact fun h => ha (h ▸ hi))
      simp [List.filter_cons, hfil]
    · have hm' : u ∈ as := by
        rcases List.mem_cons.mp hm with h | h
        · exact absurd h.symm hau
        · exact h
      have hih := ih has hm'
      have hbne : (a != u) = true := by simp [hau]
      simp only [List.filter_cons, hbne, if_true, List.length_cons]
      omega

/-- The remove branch of the toggle, as a record equation. -/
lemma toggleLike_pos {p : Post} {u : UserId} (hc : p.likedBy.contains u = true) :
    toggleLike p u = { p with likedBy := p.likedBy.filter (fun i => i != u),
                              likes := max (p.likes - 1) 0 } := by
  unfold toggleLike
  rw [hc]
  simp

/-- The add branch of the toggle, as a record equation. -/
lemma toggleLike_neg {p : Post} {u : UserId} (hc : p.likedBy.contains u = false) :
    toggleLike p u = { p with likedBy := p.likedBy ++ [u],
                              likes := p.likes + 1 } := by
  unfold toggleLike
  rw [hc]
  simp

/-- One toggle keeps `likedBy` duplicate-free. -/
lemma toggleLike_nodup_step (p : Post) (u : UserId) (h : p.likedBy.Nodup) :
    (toggleLike p u).likedBy.Nodup := by
  by_cases hc : p.likedBy.contains u = true
  · rw [toggleLike_pos hc]
    exact h.filter _
  · rw [Bool.not_eq_true] at hc
    have hmem : u ∉ p.likedBy := by simpa using hc
    rw [toggleLike_neg hc]
    show (p.likedBy ++ [u]).Nodup
    simp [List.nodup_append, h, hmem]

/-- One toggle keeps the like counter equal to the `likedBy` length. -/
lemma toggleLike_consistent_step (p : Post) (u : UserId)
    (h : LikeConsistent p) : LikeConsistent (toggleLike p u) := by
  obtain ⟨hlen, hnd⟩ := h
  refine ⟨?_, toggleLike_nodup_step p u hnd⟩
  by_cases hc : p.likedBy.contains u = true
  · have hmem : u ∈ p.likedBy := by simpa using hc
    have hflen := length_filter_ne_of_nodup hnd hmem
    rw [toggleLike_pos hc]
    show max (p.likes - 1) 0 = ((p.likedBy.filter (fun i => i != u)).length : Int)
    omega
  · rw [Bool.not_eq_true] at hc
    rw [toggleLike_neg hc]
    show p.likes + 1 = (((p.likedBy ++ [u]).length : Nat) : Int)
    simp only [List.length_append, List.length_cons, List.length_nil]
    omega

/-- C2: two successive toggles by the same user return the post's like
state to its pre-call value: the counter is restored exactly, and the
`likedBy` set (the spec models it as a set, so up to membership) is
restored exactly.  The hypothesis is the stored-state consistency
`likes = |likedBy|` that every post reachable from creation satisfies. -/
theorem toggleLike_twice_restores (p : Post) (u : UserId)
    (h : p.likes = (p.likedBy.length : Int)) :
    (toggleLike (toggleLike p u) u).likes = p.likes ∧
    ∀ x, x ∈ (toggleLike (toggleLike p u) u).likedBy ↔ x ∈ p.likedBy := by
  by_cases hc : p.likedBy.contains u = true
  · have hmem : u ∈ p.likedBy := by simpa using hc
    have hlen : 0 < p.likedBy.length := List.length_pos_of_mem hmem
    have h1 := toggleLike_pos hc
    have hc2 : (toggleLike p u).likedBy.contains u = false := by
      rw [h1]
      show (p.likedBy.filter (fun i => i != u)).contains u = false
      simp
    have h2 := toggleLike_neg hc2
    rw [h2, h1]
    refine ⟨?_, ?_⟩
    · show max (p.likes - 1) 0 + 1 = p.likes
      omega
    · intro x
      show x ∈ p.likedBy.filter (fun i => i != u) ++ [u] ↔ x ∈ p.likedBy
      by_cases hx : x = u
      · simp [hx, hmem]
      · simp [hx]
  · rw [Bool.not_eq_true] at hc
    have hmem : u ∉ p.likedBy := by simpa using hc
    have hfilter : p.likedBy.filter (fun i => i != u) = p.likedBy :=
      List.filter_eq_self.mpr (fun i hi => by
        simp only [bne_iff_ne, ne_eq, decide_eq_true_eq]
        exact fun hiu => hmem (hiu ▸ hi))
    have h1 := toggleLike_neg hc
    have hc2 : (toggleLike p u).likedBy.contains u = true := by
      rw [h1]
      show (p.likedBy ++ [u]).contains u = true
      simp
    have h2 := toggleLike_pos hc2
    rw [h2, h1]
    refine ⟨?_, ?_⟩
    · show max (p.likes + 1 - 1) 0 = p.likes
      omega
    · intro x
      show x ∈ (p.likedBy ++ [u]).filter (fun i => i != u) ↔ x ∈ p.likedBy
      simp only [List.filter_append, hfilter]
      simp

theorem toggleLike_twice_restores_witness :
    exPost1.likes = (exPost1.likedBy.length : Int) ∧
    ((toggleLike (toggleLike exPost1 "u") "u").likes = exPost1.likes ∧
     ∀ x, x ∈ (toggleLike (toggleLike exPost1 "u") "u").likedBy ↔
          x ∈ exPost1.likedBy) :=
  ⟨by decide, toggleLike_twice_restores exPost1 "u" (by decide)⟩

/-- C9: starting from a duplicate-free `likedBy` list, any sequence of
toggles keeps it duplicate-free: the add branch pushes only after the
membership check fails, and the remove branch filters out every
occurrence. -/
theorem toggleLike_sequence_nodup (p : Post) (us : List UserId)
    (h : p.likedBy.Nodup) : ((us.foldl toggleLike p).likedBy).Nodup := by
  induction us generalizing p with
  | nil => exact h
  | cons u us ih =>
    exact ih (toggleLike p u) (toggleLike_nodup_step p u h)

theorem toggleLike_sequence_nodup_witness :
    exPost1.likedBy.Nodup ∧
    ((["u", "v", "u"].foldl toggleLike exPost1).likedBy).Nodup :=
  ⟨by decide, toggleLike_sequence_nodup exPost1 ["u", "v", "u"] (by decide)⟩

/-- C10: the like counter returned by a toggle is never negative,
because the decrement branch clamps at zero — in particular from the
inconsistent state likes = 0 with the user already in `likedBy` (see
the witness), where the clamp is what prevents -1. -/
theorem toggleLike_likes_nonneg (p : Post) (u : UserId) (h : 0 ≤ p.likes) :
    0 ≤ (toggleLike p u).likes := by
  unfold toggleLike
  by_cases hc : p.likedBy.contains u = true
  · simp only [hc, if_true]
    exact le_max_right _ _
  · rw [Bool.not_eq_true] at hc
    simp only [hc, Bool.false_eq_true, if_false]
    omega

theorem toggleLike_likes_nonneg_witness :
    (0 : Int) ≤ exPost0.likes ∧ 0 ≤ (toggleLike exPost0 "u").likes :=
  ⟨by decide, toggleLike_likes_nonneg exPost0 "u" (by decide)⟩

/-- C3: starting from a post whose like state is consistent (counter
equals the cardinality of the duplicate-free `likedBy` set), every
sequence of toggles — in particular every single toggle — leaves it
consistent. -/
theorem toggleLike_sequence_consistent (p : Post) (us : List UserId)
    (h : LikeConsistent p) : LikeConsistent (us.foldl toggleLike p) := by
  induction us generalizing p with
  | nil => exact h
  | cons u us ih => exact ih (toggleLike p u) (toggleLike_consistent_step p u h)

theorem toggleLike_sequence_consistent_witness :
    LikeConsistent exPost1 ∧
    LikeConsistent (["v", "u", "w"].foldl toggleLike exPost1) :=
  ⟨⟨by decide, by decide⟩,
   toggleLike_sequence_consistent exPost1 ["v", "u", "w"] ⟨by decide, by decide⟩⟩

/-- C4: adding a comment to an existing post (with all three request
fields non-empty) succeeds and replaces the post's comment list with the
old list plus exactly one new entry at the end, carrying the given
author, text and current timestamp; prior comments are untouched and
keep their order. -/
theorem addComment_appends (db : List Post) (postId userId commentText : String)
    (now : Int) (p : Post)
    (hfind : findPostById db postId = some p)
    (hpid : postId ≠ "") (huid : userId ≠ "") (htext : commentText ≠ "") :
    (addCommentHandler db postId userId commentText now).status = 200 ∧
    findPostById (addCommentHandler db postId userId commentText now).db postId =
      some { p with comments :=
        p.comments ++ [{ userId := userId, text := commentText, createdAt := now }] } := by
  have hid : p.id = postId := id_of_findPostById hfind
  have hg : (postId == "" || userId == "" || commentText == "") = false := by
    simp [hpid, huid, htext]
  simp only [addCommentHandler, hg, Bool.false_eq_true, if_false, hfind]
  rw [findPostById_saveComments, hfind]
  simp [hid]

theorem addComment_appends_witness :
    (findPostById exPdb "q1" = some (exPdb.get ⟨0, by decide⟩) ∧
     ("q1" : String) ≠ "" ∧ ("b" : String) ≠ "" ∧ ("nice" : String) ≠ "") ∧
    ((addCommentHandler exPdb "q1" "b" "nice" 7).status = 200 ∧
     findPostById (addCommentHandler exPdb "q1" "b" "nice" 7).db "q1" =
       some { exPdb.get ⟨0, by decide⟩ with comments :=
         (exPdb.get ⟨0, by decide⟩).comments ++
           [{ userId := "b", text := "nice", createdAt := 7 }] }) :=
  ⟨⟨by decide, by decide, by decide, by decide⟩,
   addComment_appends exPdb "q1" "b" "nice" 7 _
     (by decide) (by decide) (by decide) (by decide)⟩

/-- Membership via `some` over the populated follower documents agrees
with membership of the raw id list when every id resolves. -/
lemma any_populated_eq_mem (udb : List User) (fs : List UserId) (m : String)
    (href : ∀ f ∈ fs, ∃ w, findById udb f = some w) :
    ((fs.filterMap (fun f => findById udb f)).any (fun f => f.id == m)) = true ↔
      m ∈ fs := by
  constructor
  · intro hany
    rcases List.any_eq_true.mp hany with ⟨w, hwmem, hwid⟩
    rcases List.mem_filterMap.mp hwmem with ⟨f, hf, hfw⟩
    have hwf : w.id = f := id_of_findById hfw
    have hmf : m = f := by rw [← hwf]; exact (eq_of_beq hwid).symm
    exact hmf ▸ hf
  · intro hmem
    rcases href m hmem with ⟨w, hw⟩
    have hwid : w.id = m := id_of_findById hw
    exact List.any_eq_true.mpr ⟨w, List.mem_filterMap.mpr ⟨m, hmem, hw⟩, by simp [hwid]⟩

/-- C8: for an existing user and any optional viewer id, the profile's
`isFollowing` flag is true exactly when a viewer id is provided (a
non-empty query value, since an empty one is falsy in JS), differs from
the profile id, and is a member of that user's followers; in particular
it is false when the viewer id equals the profile id or is absent.  The
referential-integrity hypothesis reflects that followers lists only ever
contain ids of existing users (populate drops unresolved ids). -/
theorem profile_isFollowing_iff (udb : List User) (id : String)
    (viewer : Option String) (user : User) (pv : ProfileView)
    (hu : findById udb id = some user)
    (href : ∀ f ∈ user.followers, ∃ w, findById udb f = some w)
    (hp : getProfile udb id viewer = some pv) :
    pv.isFollowing = true ↔
      ∃ m, viewer = some m ∧ m ≠ "" ∧ m ≠ id ∧ m ∈ user.followers := by
  simp only [getProfile, hu, Option.some.injEq] at hp
  subst hp
  cases viewer with
  | none => simp
  | some m =>
    show (if (m != "" && m != id) = true then
            (user.followers.filterMap (fun f => findById udb f)).any (fun f => f.id == m)
          else false) = true ↔ _
    by_cases hm : (m != "" && m != id) = true
    · have hm2 : m ≠ "" ∧ m ≠ id := by simpa using hm
      have hmne : m ≠ "" := hm2.1
      have hmid : m ≠ id := hm2.2
      rw [if_pos hm, any_populated_eq_mem udb user.followers m href]
      constructor
      · intro hmem
        exact ⟨m, rfl, hmne, hmid, hmem⟩
      · rintro ⟨m', hm', _, _, hmem⟩
        obtain rfl := Option.some.inj hm'
        exact hmem
    · rw [if_neg hm]
      simp only [Bool.false_eq_true, false_iff]
      rintro ⟨m', hm', hne, hnid, _⟩
      obtain rfl := Option.some.inj hm'
      exact hm (by simp [hne, hnid])

theorem profile_isFollowing_iff_witness :
    (findById exUdb3 "b" =
       some { id := "b", firstName := "Bob", lastName := "M", profileImage := "",
              followers := ["a"], following := [] } ∧
     (∀ f ∈ (["a"] : List UserId), ∃ w, findById exUdb3 f = some w) ∧
     getProfile exUdb3 "b" (some "a") =
       some { followersCount := 1, followingCount := 0, isFollowing := true }) ∧
    (({ followersCount := 1, followingCount := 0, isFollowing := true } :
        ProfileView).isFollowing = true ↔
      ∃ m, (some "a" : Option String) = some m ∧ m ≠ "" ∧ m ≠ "b" ∧
           m ∈ ({ id := "b", firstName := "Bob", lastName := "M", profileImage := "",
                  followers := ["a"], following := [] } : User).followers) :=
  ⟨⟨by decide,
    by
      intro f hf
      simp only [List.mem_singleton] at hf
      subst hf
      exact ⟨_, rfl⟩,
    by decide⟩,
   profile_isFollowing_iff exUdb3 "b" (some "a")
     { id := "b", firstName := "Bob", lastName := "M", profileImage := "",
       followers := ["a"], following := [] }
     { followersCount := 1, followingCount := 0, isFollowing := true }
     (by decide)
     (by
       intro f hf
       simp only [List.mem_singleton] at hf
       subst hf
       exact ⟨_, rfl⟩)
     (by decide)⟩

/-- The feed projection preserves the author id and creation time. -/
lemma mapPost_proj {udb : List User} {p : Post} {e : FeedEntry}
    (h : mapPost udb p = some e) :
    e.userId = p.userId ∧ e.createdAt = p.createdAt := by
  unfold mapPost at h
  cases hu : findById udb p.userId with
  | none => rw [hu] at h; cases h
  | some u =>
    rw [hu] at h
    simp only [Option.map_some'] at h
    obtain rfl := Option.some.inj h
    exact ⟨id_of_findById hu, rfl⟩

/-- Every feed entry arises from some post of the mapped list. -/
lemma mem_of_mapPosts {udb : List User} :
    ∀ {out : List Post} {entries : List FeedEntry},
    mapPosts udb out = some entries →
    ∀ e ∈ entries, ∃ p ∈ out, mapPost udb p = some e := by
  intro out
  induction out with
  | nil =>
    intro entries h e he
    simp only [mapPosts] at h
    obtain rfl := Option.some.inj h
    cases he
  | cons p ps ih =>
    intro entries h e he
    simp only [mapPosts] at h
    cases hme : mapPost udb p with
    | none => rw [hme] at h; cases h
    | some e0 =>
      cases hms : mapPosts udb ps with
      | none => rw [hme, hms] at h; cases h
      | some es =>
        rw [hme, hms] at h
        obtain rfl := Option.some.inj h
        rcases List.mem_cons.mp he with rfl | hmem
        · exact ⟨p, List.mem_cons_self _ _, hme⟩
        · obtain ⟨q, hq, hqe⟩ := ih hms e hmem
          exact ⟨q, List.mem_cons_of_mem _ hq, hqe⟩

/-- The feed projection preserves the non-increasing-timestamp ordering. -/
lemma mapPosts_pairwise {udb : List User} :
    ∀ {out : List Post} {entries : List FeedEntry},
    mapPosts udb out = some entries →
    out.Pairwise (fun a b => b.createdAt ≤ a.createdAt) →
    entries.Pairwise (fun a b => b.createdAt ≤ a.createdAt) := by
  intro out
  induction out with
  | nil =>
    intro entries h _
    simp only [mapPosts] at h
    obtain rfl := Option.some.inj h
    exact List.Pairwise.nil
  | cons p ps ih =>
    intro entries h hpw
    simp only [mapPosts] at h
    cases hme : mapPost udb p with
    | none => rw [hme] at h; cases h
    | some e0 =>
      cases hms : mapPosts udb ps with
      | none => rw [hme, hms] at h; cases h
      | some es =>
        rw [hme, hms] at h
        obtain rfl := Option.some.inj h
        obtain ⟨hhead, htail⟩ := List.pairwise_cons.mp hpw
        refine List.pairwise_cons.mpr ⟨?_, ih hms htail⟩
        intro f hf
        obtain ⟨q, hq, hqe⟩ := mem_of_mapPosts hms f hf
        rw [(mapPost_proj hqe).2, (mapPost_proj hme).2]
        exact hhead q hq

/-- C5, amended: every `GET /posts?userId=X` response built from a store
output that meets the MongoDB contract contains only entries whose
author is X, ordered by non-increasing creation timestamp.  The claim's
further assertion — that ties are broken by a stable secondary key so
repeated calls return the same ordering — is not guaranteed by the code,
which passes only `createdAt` to the sort (see the counterexample
theorem). -/
theorem listPosts_author_filter_sorted (udb : List User) (pdb : List Post)
    (X : UserId) (out : List Post) (entries : List FeedEntry)
    (hsort : StoreSortOutput pdb (some X) out)
    (hmap : mapPosts udb out = some entries) :
    (∀ e ∈ entries, e.userId = X) ∧
    entries.Pairwise (fun a b => b.createdAt ≤ a.createdAt) := by
  obtain ⟨hperm, hpair⟩ := hsort
  have hout : ∀ p ∈ out, p.userId = X := by
    intro p hp
    have hmemf : p ∈ pdb.filter (matchesAuthor (some X)) := hperm.subset hp
    have hmf := (List.mem_filter.mp hmemf).2
    simp only [matchesAuthor] at hmf
    exact eq_of_beq hmf
  refine ⟨?_, mapPosts_pairwise hmap hpair⟩
  intro e he
  obtain ⟨q, hq, hqe⟩ := mem_of_mapPosts hmap e he
  rw [(mapPost_proj hqe).1]
  exact hout q hq

theorem listPosts_author_filter_sorted_witness :
    (StoreSortOutput exTiePdb (some "x") [exTieP1, exTieP2] ∧
     mapPosts exTieUdb [exTieP1, exTieP2] =
       some [{ id := "t1", userId := "x", userName := "Xu Y", userAvatar := "",
               text := "one", image := "", video := "", likes := 0, likedBy := [],
               shares := 0, comments := 0, createdAt := 5 },
             { id := "t2", userId := "x", userName := "Xu Y", userAvatar := "",
               text := "two", image := "", video := "", likes := 0, likedBy := [],
               shares := 0, comments := 0, createdAt := 5 }]) ∧
    ((∀ e ∈ [({ id := "t1", userId := "x", userName := "Xu Y", userAvatar := "",
                text := "one", image := "", video := "", likes := 0, likedBy := [],
                shares := 0, comments := 0, createdAt := 5 } : FeedEntry),
              { id := "t2", userId := "x", userName := "Xu Y", userAvatar := "",
                text := "two", image := "", video := "", likes := 0, likedBy := [],
                shares := 0, comments := 0, createdAt := 5 }], e.userId = "x") ∧
     List.Pairwise (fun (a b : FeedEntry) => b.createdAt ≤ a.createdAt)
       [{ id := "t1", userId := "x", userName := "Xu Y", userAvatar := "",
          text := "one", image := "", video := "", likes := 0, likedBy := [],
          shares := 0, comments := 0, createdAt := 5 },
        { id := "t2", userId := "x", userName := "Xu Y", userAvatar := "",
          text := "two", image := "", video := "", likes := 0, likedBy := [],
          shares := 0, comments := 0, createdAt := 5 }]) :=
  ⟨⟨⟨List.Perm.refl _, by decide⟩, by decide⟩,
   listPosts_author_filter_sorted exTieUdb exTiePdb "x" [exTieP1, exTieP2] _
     ⟨List.Perm.refl _, by decide⟩ (by decide)⟩

/-- C5 counterexample to the tie-determinism clause: on a store holding
two posts by the same author with equal `createdAt`, both orders of the
pair satisfy the sort contract the code requests (descending `createdAt`
with no secondary key), and they produce different response lists — so
repeated calls on the same store are not guaranteed to return the same
ordering. -/
theorem listPosts_tie_order_not_deterministic :
    StoreSortOutput exTiePdb (some "x") [exTieP1, exTieP2] ∧
    StoreSortOutput exTiePdb (some "x") [exTieP2, exTieP1] ∧
    mapPosts exTieUdb [exTieP1, exTieP2] ≠ mapPosts exTieUdb [exTieP2, exTieP1] :=
  ⟨⟨List.Perm.refl _, by decide⟩,
   ⟨List.Perm.swap exTieP1 exTieP2 [], by decide⟩,
   by decide⟩

end CollegeMate

